import Mathlib

/-!
Verification of the G-kicks auto-delivery sweeper and its neighbours.

Shallow embedding of `src/lib/auto-delivery-service.ts` and the database
health-check route handler. The query-execution collaborator
(`executeQuery`) is external, so each of its round trips is modelled as an
`Except String`-valued outcome supplied by an environment: a thrown error
is `Except.error msg` (the thrown error is identified with its message,
which is all the code ever extracts from it), a normal completion is
`Except.ok v`. Timestamps are integers (seconds); SQL `NULL` is `Option`.

Two models of the sweep are given:
  * `checkAndMarkDeliveredOrders` over a `SweepEnv` of arbitrary per-query
    outcomes — this captures every behaviour of the collaborator,
    including throws, and is used for the error-handling claims;
  * `sweepDb` over a concrete database state, in which each query is given
    its SQL semantics (filter + sort for the SELECT, a guarded row map for
    the conditional UPDATE) — this is used for the selection, ordering and
    idempotency claims.
-/

namespace GKicks

/-- Subset of the `orders` table row read by the sweeper
(`SELECT id, order_number, shipped_at, status, customer_email`, plus the
`delivered_at` column consulted by the WHERE clause and the `updated_at`
column written by the UPDATE). -/
structure OrderRow where
  id : Nat
  order_number : String
  shipped_at : Option Int
  status : String
  delivered_at : Option Int
  updated_at : Option Int
  customer_email : String
deriving Repr, DecidableEq

/-- `INTERVAL 7 DAY`, in seconds. -/
def sevenDays : Int := 7 * 86400

/-- The WHERE clause of the selection query, per row:
`status = 'shipped' AND shipped_at IS NOT NULL AND
shipped_at <= DATE_SUB(NOW(), INTERVAL 7 DAY) AND
(delivered_at IS NULL OR status != 'delivered')`. -/
def selected (now : Int) (o : OrderRow) : Bool :=
  o.status == "shipped" &&
  o.shipped_at.isSome &&
  (match o.shipped_at with
   | none => false
   | some t => decide (t ≤ now - sevenDays)) &&
  (o.delivered_at == none || !(o.status == "delivered"))

/-- Sort key of `ORDER BY shipped_at ASC` (selected rows always have a
non-null `shipped_at`, so the default is never compared). -/
def shippedAtKey (o : OrderRow) : Int := o.shipped_at.getD 0

/-- Comparator realising `ORDER BY shipped_at ASC`. -/
def shippedLe (a b : OrderRow) : Bool := decide (shippedAtKey a ≤ shippedAtKey b)

/-- SQL semantics of the selection query against a concrete `orders`
table: rows satisfying the WHERE clause, ordered by `shipped_at ASC`. -/
def selectEligible (db : List OrderRow) (now : Int) : List OrderRow :=
  (db.filter (selected now)).mergeSort shippedLe

/-- Modelled from the spec: the spec's own selection predicate — status
`shipped`, non-null `shipped_at` *more than* 7 days in the past, not
already `delivered` — written for comparison with `selected`, which is
translated from the SQL. -/
def specSelected (now : Int) (o : OrderRow) : Bool :=
  o.status == "shipped" &&
  (match o.shipped_at with
   | none => false
   | some t => decide (now - t > sevenDays)) &&
  !(o.status == "delivered")

/-- Outcomes the environment supplies for the two per-order round trips:
the conditional UPDATE (throws, or returns `affectedRows`) and the
audit-log INSERT (throws, or succeeds). -/
structure OrderOutcome where
  updateResult : Except String Nat
  auditResult : Except String Unit

/-- One behaviour of the query collaborator across a sweep invocation:
the outcome of the initial SELECT (`Except.ok none` models a null/absent
result set, caught by the `!orders` check) and, per order id, the
outcomes of that order's UPDATE and audit INSERT. -/
structure SweepEnv where
  selectResult : Except String (Option (List OrderRow))
  perOrder : Nat → OrderOutcome

/-- Return shape of `checkAndMarkDeliveredOrders`. -/
structure SweepResult where
  processedCount : Nat
  processedOrders : List String
  errors : List String
deriving Repr, DecidableEq

/-- The per-order error message built in the loop's catch block. -/
def perOrderErrorMsg (orderNumber msg : String) : String :=
  "Failed to process order " ++ orderNumber ++ ": " ++ msg

/-- `AutoDeliveryService.logAutoDelivery`: attempts the audit INSERT and
swallows any failure in its own catch block («Don't fail the main process
if logging fails»), so it completes normally on every outcome. -/
def logAutoDelivery (auditOutcome : Except String Unit) : Except String Unit :=
  match auditOutcome with
  | Except.ok _ => Except.ok ()
  | Except.error _ => Except.ok ()

/-- Body of the `for (const order of orders)` loop, acting on the
accumulated `(processedOrders, errors)` pair: run the conditional UPDATE;
on a throw, append the per-order message to `errors`; on
`affectedRows === 1`, push the order number and call `logAutoDelivery`
(whose own failure, were it to propagate, would land in the same catch);
otherwise skip silently. -/
def processOrder (env : SweepEnv) (acc : List String × List String) (o : OrderRow) :
    List String × List String :=
  match (env.perOrder o.id).updateResult with
  | Except.error msg => (acc.1, acc.2 ++ [perOrderErrorMsg o.order_number msg])
  | Except.ok affected =>
    if affected = 1 then
      match logAutoDelivery (env.perOrder o.id).auditResult with
      | Except.ok _ => (acc.1 ++ [o.order_number], acc.2)
      | Except.error msg => (acc.1 ++ [o.order_number], acc.2 ++ [perOrderErrorMsg o.order_number msg])
    else acc

/-- `AutoDeliveryService.checkAndMarkDeliveredOrders` over an arbitrary
collaborator behaviour. The outer try/catch turns a SELECT throw into
`{0, [], [message]}`; a null or empty result set returns the empty
result; otherwise the orders are folded through the loop body and the
final result is assembled with `processedCount = processedOrders.length`. -/
def checkAndMarkDeliveredOrders (env : SweepEnv) : SweepResult :=
  match env.selectResult with
  | Except.error msg => ⟨0, [], [msg]⟩
  | Except.ok none => ⟨0, [], []⟩
  | Except.ok (some orders) =>
    if orders.length = 0 then ⟨0, [], []⟩
    else
      let acc := orders.foldl (processOrder env) ([], [])
      ⟨acc.1.length, acc.1, acc.2⟩

/-- A row of `auto_delivery_logs` as inserted by `logAutoDelivery`. -/
structure AuditEntry where
  order_id : Nat
  order_number : String
  customer_email : String
  processed_at : Int
deriving Repr, DecidableEq

/-- Per-row effect of the conditional UPDATE
(`SET status='delivered', delivered_at=NOW(), updated_at=NOW()
WHERE id = ? AND status = 'shipped'`). -/
def applyCondUpdate (now : Int) (oid : Nat) (r : OrderRow) : OrderRow :=
  if r.id == oid && r.status == "shipped" then
    { r with status := "delivered", delivered_at := some now, updated_at := some now }
  else r

/-- SQL semantics of the conditional UPDATE against a concrete table:
the updated table, paired with `affectedRows` (the number of rows
matching the WHERE clause). -/
def condUpdate (db : List OrderRow) (now : Int) (oid : Nat) : List OrderRow × Nat :=
  (db.map (applyCondUpdate now oid),
   (db.filter (fun r => r.id == oid && r.status == "shipped")).length)

/-- Concrete data-store state: the `orders` table and the
`auto_delivery_logs` table. -/
structure DbState where
  orders : List OrderRow
  auditLog : List AuditEntry
deriving Repr, DecidableEq

/-- State threaded through the deterministic sweep: the database, the two
accumulator lists, and the trace of order ids for which an UPDATE
statement has been issued, in issue order. -/
structure SweepTrace where
  db : DbState
  processed : List String
  errors : List String
  updates : List Nat
deriving Repr, DecidableEq

/-- Loop body of the sweep against the concrete database: issue the
conditional UPDATE for this order; when it affects exactly one row,
record the order number and append the audit entry, otherwise skip. -/
def stepOrderDb (now : Int) (s : SweepTrace) (o : OrderRow) : SweepTrace :=
  let r := condUpdate s.db.orders now o.id
  if r.2 = 1 then
    { db := { orders := r.1,
              auditLog := s.db.auditLog ++ [⟨o.id, o.order_number, o.customer_email, now⟩] },
      processed := s.processed ++ [o.order_number],
      errors := s.errors,
      updates := s.updates ++ [o.id] }
  else
    { db := { orders := r.1, auditLog := s.db.auditLog },
      processed := s.processed,
      errors := s.errors,
      updates := s.updates ++ [o.id] }

/-- `checkAndMarkDeliveredOrders` against a concrete database in which no
round trip throws: SELECT the eligible orders oldest-shipped-first, then
process them sequentially in that order. Returns the final trace and the
result object. -/
def sweepDb (db : DbState) (now : Int) : SweepTrace × SweepResult :=
  let orders := selectEligible db.orders now
  if orders.length = 0 then
    ({ db := db, processed := [], errors := [], updates := [] }, ⟨0, [], []⟩)
  else
    let t := orders.foldl (stepOrderDb now)
      { db := db, processed := [], errors := [], updates := [] }
    (t, ⟨t.processed.length, t.processed, t.errors⟩)

/-- Non-secret connection metadata returned by `getDatabaseConfig`. -/
structure DbConfig where
  host : String
  database : String
deriving Repr, DecidableEq

/-- JSON body (plus HTTP status) produced by the health-check route;
absent JSON fields are `none`. -/
structure HealthResponse where
  success : Bool
  mysqlConnected : Bool
  host : Option String
  database : Option String
  error : Option String
  status : Nat
deriving Repr, DecidableEq

/-- The health-check route's `GET` handler: probe with `testConnection`
(which may throw, or resolve `true`/`false`); on `true` report success
with host and database name; on `false` report failure with HTTP 500 and
no error field; on a throw report failure with HTTP 500 and the error's
message. -/
def healthGET (conn : Except String Bool) (cfg : DbConfig) : HealthResponse :=
  match conn with
  | Except.error msg => ⟨false, false, none, none, some msg, 500⟩
  | Except.ok true => ⟨true, true, some cfg.host, some cfg.database, none, 200⟩
  | Except.ok false => ⟨false, false, none, none, none, 500⟩

/-- Collaborator behaviour for `getStats`: the table-existence probe
(`Except.ok` carries `tableCheck[0]?.cnt`, `none` when the row or field
is absent) and the aggregate query (`Except.ok` carries
`(total_processed, last_processed)` of the first row, `none` when
absent). -/
structure StatsEnv where
  tableCheck : Except String (Option Nat)
  statsRow : Except String (Option (Nat × Option String))

/-- Return shape of `getStats`. -/
structure StatsResult where
  totalProcessed : Nat
  lastProcessed : Option String
  errorCount : Nat
deriving Repr, DecidableEq

/-- `AutoDeliveryService.getStats`: if the `auto_delivery_logs` table
does not exist (count 0 or missing) return all-zero; otherwise read the
aggregates, defaulting missing values; any throw is caught and returns
all-zero. `errorCount` is the literal 0 in both return sites. -/
def getStats (env : StatsEnv) : StatsResult :=
  match env.tableCheck with
  | Except.error _ => ⟨0, none, 0⟩
  | Except.ok cnt =>
    if cnt.getD 0 = 0 then ⟨0, none, 0⟩
    else
      match env.statsRow with
      | Except.error _ => ⟨0, none, 0⟩
      | Except.ok row => ⟨(row.map Prod.fst).getD 0, row.bind Prod.snd, 0⟩

/-- Composite effect on a single row of issuing the conditional UPDATE
for each order of `l`, in order (used to reason about the fold). -/
def applyAll (now : Int) (l : List OrderRow) (r : OrderRow) : OrderRow :=
  l.foldl (fun r o => applyCondUpdate now o.id r) r

/-! Concrete fixtures, used to instantiate the theorems below. -/

/-- The spec's scenario order: shipped at time 0, not delivered. -/
def ord42 : OrderRow :=
  ⟨42, "ORD-0042", some 0, "shipped", none, none, "c@example.com"⟩

def ordA : OrderRow := ⟨1, "ORD-A", some 0, "shipped", none, none, "a@example.com"⟩

def ordB : OrderRow := ⟨2, "ORD-B", some 100, "shipped", none, none, "b@example.com"⟩

/-- Ten days, in seconds (a clock at which `ord42` is eligible). -/
def tenDays : Int := 10 * 86400

/-- Behaviour where the initial SELECT throws. -/
def envSelectThrows : SweepEnv :=
  ⟨Except.error "boom", fun _ => ⟨Except.ok 0, Except.ok ()⟩⟩

/-- Behaviour where the SELECT returns an empty result set. -/
def envEmptySelect : SweepEnv :=
  ⟨Except.ok (some []), fun _ => ⟨Except.ok 0, Except.ok ()⟩⟩

/-- Behaviour: `ord42` selected, its UPDATE succeeds with one affected
row, and its audit-log INSERT throws. -/
def envAuditFails : SweepEnv :=
  ⟨Except.ok (some [ord42]),
   fun i => if i = 42 then ⟨Except.ok 1, Except.error "disk full"⟩
            else ⟨Except.ok 0, Except.ok ()⟩⟩

/-- Same as `envAuditFails` but the audit-log INSERT succeeds. -/
def envAuditOk : SweepEnv :=
  ⟨Except.ok (some [ord42]),
   fun i => if i = 42 then ⟨Except.ok 1, Except.ok ()⟩
            else ⟨Except.ok 0, Except.ok ()⟩⟩

/-- Behaviour: two orders selected, `ordA`'s UPDATE throws and `ordB`'s
UPDATE succeeds. -/
def envMixed : SweepEnv :=
  ⟨Except.ok (some [ordA, ordB]),
   fun i => if i = 1 then ⟨Except.error "connection lost", Except.ok ()⟩
            else if i = 2 then ⟨Except.ok 1, Except.ok ()⟩
            else ⟨Except.ok 0, Except.ok ()⟩⟩

/-- A one-order database holding the scenario order. -/
def dbOne : DbState := ⟨[ord42], []⟩

/-- `ord42` as it stands after being marked delivered. -/
def ord42Delivered : OrderRow :=
  ⟨42, "ORD-0042", some 0, "delivered", some tenDays, some tenDays, "c@example.com"⟩

/-- A sweep state over a database whose only order is already delivered. -/
def traceDelivered : SweepTrace := ⟨⟨[ord42Delivered], []⟩, [], [], []⟩

/-! Helper lemmas about the loop body and its fold. -/

theorem logAutoDelivery_ok (a : Except String Unit) : logAutoDelivery a = Except.ok () := by
  cases a <;> rfl

theorem processOrder_ok1 (env : SweepEnv) (acc : List String × List String) (o : OrderRow)
    (h : (env.perOrder o.id).updateResult = Except.ok 1) :
    processOrder env acc o = (acc.1 ++ [o.order_number], acc.2) := by
  simp [processOrder, h, logAutoDelivery_ok]

theorem processOrder_okn (env : SweepEnv) (acc : List String × List String) (o : OrderRow)
    (n : Nat) (h : (env.perOrder o.id).updateResult = Except.ok n) (hn : n ≠ 1) :
    processOrder env acc o = acc := by
  simp [processOrder, h, hn]

theorem processOrder_err (env : SweepEnv) (acc : List String × List String) (o : OrderRow)
    (m : String) (h : (env.perOrder o.id).updateResult = Except.error m) :
    processOrder env acc o = (acc.1, acc.2 ++ [perOrderErrorMsg o.order_number m]) := by
  simp [processOrder, h]

theorem foldl_processed_mono (env : SweepEnv) (l : List OrderRow)
    (acc : List String × List String) (x : String) (hx : x ∈ acc.1) :
    x ∈ (l.foldl (processOrder env) acc).1 := by
  induction l generalizing acc with
  | nil => exact hx
  | cons o l ih =>
    apply ih
    cases h : (env.perOrder o.id).updateResult with
    | error m => rw [processOrder_err env acc o m h]; exact hx
    | ok n =>
      by_cases hn : n = 1
      · subst hn
        rw [processOrder_ok1 env acc o h]
        exact List.mem_append_left _ hx
      · rw [processOrder_okn env acc o n h hn]; exact hx

theorem foldl_errors_mono (env : SweepEnv) (l : List OrderRow)
    (acc : List String × List String) (x : String) (hx : x ∈ acc.2) :
    x ∈ (l.foldl (processOrder env) acc).2 := by
  induction l generalizing acc with
  | nil => exact hx
  | cons o l ih =>
    apply ih
    cases h : (env.perOrder o.id).updateResult with
    | error m =>
      rw [processOrder_err env acc o m h]
      exact List.mem_append_left _ hx
    | ok n =>
      by_cases hn : n = 1
      · subst hn
        rw [processOrder_ok1 env acc o h]; exact hx
      · rw [processOrder_okn env acc o n h hn]; exact hx

theorem foldl_mem_processed (env : SweepEnv) (l : List OrderRow)
    (acc : List String × List String) (o : OrderRow) (ho : o ∈ l)
    (h : (env.perOrder o.id).updateResult = Except.ok 1) :
    o.order_number ∈ (l.foldl (processOrder env) acc).1 := by
  induction l generalizing acc with
  | nil => cases ho
  | cons a l ih =>
    rw [List.foldl_cons]
    rcases List.mem_cons.mp ho with rfl | ho'
    · apply foldl_processed_mono
      rw [processOrder_ok1 env acc o h]
      exact List.mem_append_right _ (List.mem_singleton_self _)
    · exact ih _ ho'

theorem foldl_mem_errors (env : SweepEnv) (l : List OrderRow)
    (acc : List String × List String) (o : OrderRow) (m : String) (ho : o ∈ l)
    (h : (env.perOrder o.id).updateResult = Except.error m) :
    perOrderErrorMsg o.order_number m ∈ (l.foldl (processOrder env) acc).2 := by
  induction l generalizing acc with
  | nil => cases ho
  | cons a l ih =>
    rw [List.foldl_cons]
    rcases List.mem_cons.mp ho with rfl | ho'
    · apply foldl_errors_mono
      rw [processOrder_err env acc o m h]
      exact List.mem_append_right _ (List.mem_singleton_self _)
    · exact ih _ ho'

theorem foldl_processed_sound (env : SweepEnv) (l : List OrderRow)
    (acc : List String × List String) (x : String)
    (hx : x ∈ (l.foldl (processOrder env) acc).1) :
    x ∈ acc.1 ∨ ∃ o, o ∈ l ∧ o.order_number = x ∧
      (env.perOrder o.id).updateResult = Except.ok 1 := by
  induction l generalizing acc with
  | nil => exact Or.inl hx
  | cons a l ih =>
    rcases ih _ hx with h1 | ⟨o, ho, hno, hu⟩
    · cases h : (env.perOrder a.id).updateResult with
      | error m =>
        rw [processOrder_err env acc a m h] at h1
        exact Or.inl h1
      | ok n =>
        by_cases hn : n = 1
        · subst hn
          rw [processOrder_ok1 env acc a h] at h1
          rcases List.mem_append.mp h1 with h2 | h2
          · exact Or.inl h2
          · exact Or.inr ⟨a, List.mem_cons_self a l, (List.mem_singleton.mp h2).symm, h⟩
        · rw [processOrder_okn env acc a n h hn] at h1
          exact Or.inl h1
    · exact Or.inr ⟨o, List.mem_cons_of_mem a ho, hno, hu⟩

theorem sweep_count_len (env : SweepEnv) :
    (checkAndMarkDeliveredOrders env).processedCount =
      (checkAndMarkDeliveredOrders env).processedOrders.length := by
  unfold checkAndMarkDeliveredOrders
  cases env.selectResult with
  | error m => rfl
  | ok v =>
    cases v with
    | none => rfl
    | some orders => by_cases h : orders.length = 0 <;> simp [h]

/-! Claim theorems. -/

/-- C1: for every behaviour of the query collaborator,
`checkAndMarkDeliveredOrders` completes with a well-formed result (its
`processedCount` agrees with its `processedOrders`); when the initial
selection query throws, the result is zero processed orders and exactly
the thrown error's message as the single error entry. -/
theorem sweep_never_throws_and_select_failure (env : SweepEnv) :
    ((checkAndMarkDeliveredOrders env).processedCount =
      (checkAndMarkDeliveredOrders env).processedOrders.length) ∧
    ∀ msg, env.selectResult = Except.error msg →
      checkAndMarkDeliveredOrders env = ⟨0, [], [msg]⟩ := by
  refine ⟨sweep_count_len env, fun msg h => ?_⟩
  simp [checkAndMarkDeliveredOrders, h]

/-- Witness for C1: with a SELECT that throws "boom", the sweep returns
zero processed orders and the single error "boom". -/
theorem sweep_never_throws_and_select_failure_witness :
    checkAndMarkDeliveredOrders envSelectThrows = ⟨0, [], ["boom"]⟩ :=
  (sweep_never_throws_and_select_failure envSelectThrows).2 "boom" rfl

/-- C8: when the selection query returns zero eligible orders (a null or
empty result set), the sweep returns exactly
`{processedCount := 0, processedOrders := [], errors := []}`. -/
theorem sweep_empty_selection (env : SweepEnv)
    (h : env.selectResult = Except.ok none ∨ env.selectResult = Except.ok (some [])) :
    checkAndMarkDeliveredOrders env = ⟨0, [], []⟩ := by
  rcases h with h | h <;> simp [checkAndMarkDeliveredOrders, h]

/-- Witness for C8 at an environment whose SELECT returns `[]`. -/
theorem sweep_empty_selection_witness :
    checkAndMarkDeliveredOrders envEmptySelect = ⟨0, [], []⟩ :=
  sweep_empty_selection envEmptySelect (Or.inr rfl)

/-- C7: when the `auto_delivery_logs` table does not exist (the
existence probe reports a zero or missing count), `getStats` returns
`{totalProcessed := 0, lastProcessed := none, errorCount := 0}` without
throwing; and in every result `errorCount` is 0. -/
theorem getStats_missing_table (env : StatsEnv) :
    ((env.tableCheck = Except.ok none ∨ env.tableCheck = Except.ok (some 0)) →
      getStats env = ⟨0, none, 0⟩) ∧
    (getStats env).errorCount = 0 := by
  constructor
  · rintro (h | h) <;> simp [getStats, h]
  · unfold getStats
    cases env.tableCheck with
    | error m => rfl
    | ok cnt =>
      cases env.statsRow with
      | error m => by_cases h : cnt.getD 0 = 0 <;> simp [h]
      | ok row => by_cases h : cnt.getD 0 = 0 <;> simp [h]

/-- Witness for C7 at an environment whose existence probe counts 0. -/
theorem getStats_missing_table_witness :
    getStats ⟨Except.ok (some 0), Except.ok none⟩ = ⟨0, none, 0⟩ :=
  (getStats_missing_table ⟨Except.ok (some 0), Except.ok none⟩).1 (Or.inr rfl)

/-- C2 counterexample: an order shipped *exactly* 7 days before the
current time is selected by the query (its WHERE clause uses `<=`),
while the claim's strict "more than 7 days" predicate rejects it — so
the claimed equivalence fails at this input. -/
theorem selection_boundary_counterexample :
    selected sevenDays ord42 = true ∧ specSelected sevenDays ord42 = false := by
  exact ⟨rfl, rfl⟩

/-- C2 amended: an order is selected iff its status is "shipped", its
`shipped_at` is non-null and *at least* 7 days (inclusive) before the
current time, and it is not already delivered; consequently an order
shipped strictly less than 7 days ago is never selected. -/
theorem selection_characterisation (now : Int) (o : OrderRow) :
    (selected now o = true ↔
      o.status = "shipped" ∧ ∃ t, o.shipped_at = some t ∧ t ≤ now - sevenDays ∧
        o.status ≠ "delivered") ∧
    (∀ t, o.shipped_at = some t → now - t < sevenDays → selected now o = false) := by
  constructor
  · cases hs : o.shipped_at with
    | none => simp [selected, hs]
    | some t =>
      simp only [selected, hs, Option.isSome_some, Bool.and_eq_true, beq_iff_eq,
        decide_eq_true_eq, Bool.or_eq_true, Bool.not_eq_true', beq_eq_false_iff_ne,
        Option.some.injEq]
      constructor
      · rintro ⟨⟨⟨h1, -⟩, h2⟩, -⟩
        exact ⟨h1, t, rfl, h2, by rw [h1]; decide⟩
      · rintro ⟨h1, t', ht', h2, h3⟩
        cases ht'
        exact ⟨⟨⟨h1, trivial⟩, h2⟩, Or.inr h3⟩
  · intro t ht hlt
    have hnot : ¬ (t ≤ now - sevenDays) := by omega
    simp [selected, ht, hnot]

/-- Witness for C2 amended: an order shipped "now minus 100 seconds"
(far less than 7 days) is not selected. -/
theorem selection_characterisation_witness :
    selected 100 ord42 = false :=
  (selection_characterisation 100 ord42).2 0 rfl (by decide)

/-- C6 counterexample: when the connectivity probe resolves `false` —
a failed connection probe that does not throw — the handler returns a
failure status (HTTP 500, `success := false`) but *no* error message,
contradicting "on any connection failure it returns a failure status
with an error message". -/
theorem healthGET_counterexample :
    (healthGET (Except.ok false) ⟨"h", "d"⟩).success = false ∧
    (healthGET (Except.ok false) ⟨"h", "d"⟩).status = 500 ∧
    (healthGET (Except.ok false) ⟨"h", "d"⟩).error = none :=
  ⟨rfl, rfl, rfl⟩

/-- C6 amended: on a successful probe the handler returns success with
the host and database name; on a *thrown* connection error it returns a
failure status carrying that error's message; on a probe that resolves
`false` it returns a failure status with no error message. -/
theorem healthGET_behaviour (conn : Except String Bool) (cfg : DbConfig) :
    (conn = Except.ok true →
      healthGET conn cfg = ⟨true, true, some cfg.host, some cfg.database, none, 200⟩) ∧
    (∀ msg, conn = Except.error msg →
      healthGET conn cfg = ⟨false, false, none, none, some msg, 500⟩) ∧
    (conn = Except.ok false →
      healthGET conn cfg = ⟨false, false, none, none, none, 500⟩) := by
  refine ⟨fun h => ?_, fun msg h => ?_, fun h => ?_⟩ <;> subst h <;> rfl

/-- Witness for C6 amended at a successful probe. -/
theorem healthGET_behaviour_witness :
    healthGET (Except.ok true) ⟨"db.example.com", "gkicks"⟩ =
      ⟨true, true, some "db.example.com", some "gkicks", none, 200⟩ :=
  (healthGET_behaviour (Except.ok true) ⟨"db.example.com", "gkicks"⟩).1 rfl

theorem processOrder_congr (env env' : SweepEnv)
    (hupd : ∀ i, (env'.perOrder i).updateResult = (env.perOrder i).updateResult)
    (acc : List String × List String) (o : OrderRow) :
    processOrder env' acc o = processOrder env acc o := by
  simp only [processOrder, hupd, logAutoDelivery_ok]

theorem foldl_congr_env (env env' : SweepEnv)
    (hupd : ∀ i, (env'.perOrder i).updateResult = (env.perOrder i).updateResult)
    (l : List OrderRow) (acc : List String × List String) :
    l.foldl (processOrder env') acc = l.foldl (processOrder env) acc := by
  induction l generalizing acc with
  | nil => rfl
  | cons a l ih =>
    rw [List.foldl_cons, List.foldl_cons, processOrder_congr env env' hupd, ih]

/-- C4: for a selected order whose conditional update affects exactly one
row, the audit-log outcome never influences the sweep: for every audit
outcome the loop body pushes the order number and adds no error; the
order is reported in `processedOrders`; and the overall result is
unchanged when only the audit outcomes differ between two behaviours. -/
theorem audit_failure_nonblocking (env env' : SweepEnv) (orders : List OrderRow) (o : OrderRow)
    (hsel : env.selectResult = Except.ok (some orders))
    (ho : o ∈ orders)
    (hupd : (env.perOrder o.id).updateResult = Except.ok 1)
    (hsel' : env'.selectResult = env.selectResult)
    (hupd' : ∀ i, (env'.perOrder i).updateResult = (env.perOrder i).updateResult) :
    (∀ acc, processOrder env acc o = (acc.1 ++ [o.order_number], acc.2)) ∧
    o.order_number ∈ (checkAndMarkDeliveredOrders env).processedOrders ∧
    checkAndMarkDeliveredOrders env' = checkAndMarkDeliveredOrders env := by
  have hne : orders.length ≠ 0 := by
    intro h0
    rw [List.length_eq_zero] at h0
    subst h0; cases ho
  refine ⟨fun acc => processOrder_ok1 env acc o hupd, ?_, ?_⟩
  · simp only [checkAndMarkDeliveredOrders, hsel]
    rw [if_neg hne]
    exact foldl_mem_processed env orders ([], []) o ho hupd
  · simp only [checkAndMarkDeliveredOrders, hsel', hsel]
    rw [if_neg hne, if_neg hne, foldl_congr_env env env' hupd' orders ([], [])]

/-- Witness for C4: the audit INSERT for `ord42` throws "disk full", yet
`ord42` is still reported as processed. -/
theorem audit_failure_nonblocking_witness :
    "ORD-0042" ∈ (checkAndMarkDeliveredOrders envAuditFails).processedOrders :=
  (audit_failure_nonblocking envAuditFails envAuditOk [ord42] ord42 rfl
    (List.mem_singleton_self _) rfl rfl
    (fun i => by unfold envAuditOk envAuditFails; dsimp only; split <;> rfl)).2.1

/-- C5: within one batch, one order's UPDATE throwing appends its message
to `errors` while any other order whose UPDATE affected one row is still
reported in `processedOrders` — one failing order never aborts the
batch. -/
theorem per_order_failure_isolated (env : SweepEnv) (orders : List OrderRow)
    (a b : OrderRow) (m : String)
    (hsel : env.selectResult = Except.ok (some orders))
    (ha : a ∈ orders) (hb : b ∈ orders)
    (hae : (env.perOrder a.id).updateResult = Except.error m)
    (hbu : (env.perOrder b.id).updateResult = Except.ok 1) :
    perOrderErrorMsg a.order_number m ∈ (checkAndMarkDeliveredOrders env).errors ∧
    b.order_number ∈ (checkAndMarkDeliveredOrders env).processedOrders := by
  have hne : orders.length ≠ 0 := by
    intro h0
    rw [List.length_eq_zero] at h0
    subst h0; cases ha
  constructor
  · simp only [checkAndMarkDeliveredOrders, hsel]
    rw [if_neg hne]
    exact foldl_mem_errors env orders ([], []) a m ha hae
  · simp only [checkAndMarkDeliveredOrders, hsel]
    rw [if_neg hne]
    exact foldl_mem_processed env orders ([], []) b hb hbu

/-- Witness for C5: `ordA`'s UPDATE throws "connection lost", `ordB`'s
succeeds; the result carries A's message and still reports B. -/
theorem per_order_failure_isolated_witness :
    perOrderErrorMsg "ORD-A" "connection lost" ∈ (checkAndMarkDeliveredOrders envMixed).errors ∧
    "ORD-B" ∈ (checkAndMarkDeliveredOrders envMixed).processedOrders :=
  per_order_failure_isolated envMixed [ordA, ordB] ordA ordB "connection lost" rfl
    (List.mem_cons_self _ _) (List.mem_cons_of_mem _ (List.mem_singleton_self _)) rfl rfl

/-- C10: in every result, `processedCount` equals the length of
`processedOrders`, and every entry of `processedOrders` is the
`order_number` of a selected order whose conditional update affected
exactly one row. -/
theorem result_consistency (env : SweepEnv) :
    (checkAndMarkDeliveredOrders env).processedCount =
      (checkAndMarkDeliveredOrders env).processedOrders.length ∧
    ∀ orders, env.selectResult = Except.ok (some orders) →
      ∀ x ∈ (checkAndMarkDeliveredOrders env).processedOrders,
        ∃ o, o ∈ orders ∧ o.order_number = x ∧
          (env.perOrder o.id).updateResult = Except.ok 1 := by
  refine ⟨sweep_count_len env, fun orders hsel x hx => ?_⟩
  by_cases hne : orders.length = 0
  · rw [List.length_eq_zero] at hne
    subst hne
    simp [checkAndMarkDeliveredOrders, hsel] at hx
  · simp only [checkAndMarkDeliveredOrders, hsel] at hx
    rw [if_neg hne] at hx
    have hx' : x ∈ (orders.foldl (processOrder env) ([], [])).1 := hx
    rcases foldl_processed_sound env orders ([], []) x hx' with h | ⟨o, ho, hno, hu⟩
    · cases h
    · exact ⟨o, ho, hno, hu⟩

/-- Witness for C10: the only reported order number of `envAuditOk`'s
sweep comes from the selected order `ord42` with one affected row. -/
theorem result_consistency_witness :
    ∃ o, o ∈ [ord42] ∧ o.order_number = "ORD-0042" ∧
      (envAuditOk.perOrder o.id).updateResult = Except.ok 1 :=
  (result_consistency envAuditOk).2 [ord42] rfl "ORD-0042" (by decide)

/-! Helper lemmas about the database-model sweep. -/

theorem applyAll_cons (now : Int) (a : OrderRow) (l : List OrderRow) (r : OrderRow) :
    applyAll now (a :: l) r = applyAll now l (applyCondUpdate now a.id r) := rfl

theorem applyCondUpdate_id (now : Int) (oid : Nat) (r : OrderRow) :
    (applyCondUpdate now oid r).id = r.id := by
  unfold applyCondUpdate
  split <;> rfl

theorem applyCondUpdate_shipped_at (now : Int) (oid : Nat) (r : OrderRow) :
    (applyCondUpdate now oid r).shipped_at = r.shipped_at := by
  unfold applyCondUpdate
  split <;> rfl

theorem applyCondUpdate_of_ne (now : Int) (oid : Nat) (r : OrderRow) (h : r.id ≠ oid) :
    applyCondUpdate now oid r = r := by
  unfold applyCondUpdate
  rw [if_neg]
  simp [h]

theorem applyCondUpdate_of_nomatch (now : Int) (oid : Nat) (r : OrderRow)
    (h : ¬ ((r.id == oid && r.status == "shipped") = true)) :
    applyCondUpdate now oid r = r := by
  unfold applyCondUpdate
  rw [if_neg h]

theorem applyCondUpdate_status (now : Int) (oid : Nat) (r : OrderRow) :
    ((applyCondUpdate now oid r).status = "shipped") ↔
      (r.status = "shipped" ∧ r.id ≠ oid) := by
  unfold applyCondUpdate
  by_cases h : (r.id == oid && r.status == "shipped") = true
  · rw [if_pos h]
    rw [Bool.and_eq_true, beq_iff_eq, beq_iff_eq] at h
    constructor
    · intro hc
      have hc' : ("delivered" : String) = "shipped" := hc
      exact absurd hc' (by decide)
    · rintro ⟨-, hne⟩; exact absurd h.1 hne
  · rw [if_neg h]
    rw [Bool.and_eq_true, beq_iff_eq, beq_iff_eq] at h
    constructor
    · intro hs
      refine ⟨hs, fun hid => h ⟨hid, hs⟩⟩
    · rintro ⟨hs, -⟩; exact hs

theorem applyAll_id (now : Int) (l : List OrderRow) (r : OrderRow) :
    (applyAll now l r).id = r.id := by
  induction l generalizing r with
  | nil => rfl
  | cons a l ih => rw [applyAll_cons, ih, applyCondUpdate_id]

theorem applyAll_of_not_mem (now : Int) (l : List OrderRow) (r : OrderRow)
    (h : ∀ o ∈ l, r.id ≠ o.id) : applyAll now l r = r := by
  induction l generalizing r with
  | nil => rfl
  | cons a l ih =>
    rw [applyAll_cons, applyCondUpdate_of_ne now a.id r (h a (List.mem_cons_self a l))]
    exact ih r fun o ho => h o (List.mem_cons_of_mem a ho)

theorem applyAll_status_shipped (now : Int) (l : List OrderRow) (r : OrderRow) :
    ((applyAll now l r).status = "shipped") ↔
      (r.status = "shipped" ∧ ∀ o ∈ l, r.id ≠ o.id) := by
  induction l generalizing r with
  | nil => simp [applyAll]
  | cons a l ih =>
    rw [applyAll_cons, ih, applyCondUpdate_status, applyCondUpdate_id,
      List.forall_mem_cons]
    tauto

theorem selected_applyAll_false (now : Int) (db : List OrderRow) (r : OrderRow)
    (hr : r ∈ db) :
    selected now (applyAll now (selectEligible db now) r) = false := by
  by_cases hs : (applyAll now (selectEligible db now) r).status = "shipped"
  · rw [applyAll_status_shipped] at hs
    obtain ⟨hrs, hall⟩ := hs
    rw [applyAll_of_not_mem now _ r hall]
    by_contra hsel
    rw [Bool.not_eq_false] at hsel
    have hmem : r ∈ selectEligible db now := by
      unfold selectEligible
      rw [List.mem_mergeSort]
      exact List.mem_filter.mpr ⟨hr, hsel⟩
    exact hall r hmem rfl
  · have hb : ((applyAll now (selectEligible db now) r).status == "shipped") = false := by
      rw [beq_eq_false_iff_ne]
      exact hs
    simp [selected, hb]

theorem selectEligible_after (db : List OrderRow) (now : Int) :
    selectEligible (db.map (applyAll now (selectEligible db now))) now = [] := by
  have hfil : (db.map (applyAll now (selectEligible db now))).filter (selected now) = [] := by
    rw [List.filter_eq_nil_iff]
    intro a ha
    rcases List.mem_map.mp ha with ⟨r, hr, rfl⟩
    simp [selected_applyAll_false now db r hr]
  calc selectEligible (db.map (applyAll now (selectEligible db now))) now
      = ((db.map (applyAll now (selectEligible db now))).filter (selected now)).mergeSort
          shippedLe := rfl
    _ = ([] : List OrderRow).mergeSort shippedLe := by rw [hfil]
    _ = [] := List.mergeSort_nil

theorem stepOrderDb_orders (now : Int) (s : SweepTrace) (o : OrderRow) :
    (stepOrderDb now s o).db.orders = s.db.orders.map (applyCondUpdate now o.id) := by
  unfold stepOrderDb
  dsimp only
  split <;> rfl

theorem stepOrderDb_updates (now : Int) (s : SweepTrace) (o : OrderRow) :
    (stepOrderDb now s o).updates = s.updates ++ [o.id] := by
  unfold stepOrderDb
  dsimp only
  split <;> rfl

theorem foldl_step_updates (now : Int) (l : List OrderRow) (s : SweepTrace) :
    (l.foldl (stepOrderDb now) s).updates = s.updates ++ l.map (fun o => o.id) := by
  induction l generalizing s with
  | nil => simp
  | cons a l ih =>
    rw [List.foldl_cons, ih, stepOrderDb_updates]
    simp

theorem foldl_step_orders (now : Int) (l : List OrderRow) (s : SweepTrace) :
    (l.foldl (stepOrderDb now) s).db.orders = s.db.orders.map (applyAll now l) := by
  induction l generalizing s with
  | nil =>
    simp only [List.foldl_nil]
    rw [List.map_congr_left fun r _ => (rfl : applyAll now [] r = r)]
    exact (List.map_id _).symm
  | cons a l ih =>
    rw [List.foldl_cons, ih, stepOrderDb_orders, List.map_map]
    rfl

theorem sweepDb_orders (db : DbState) (now : Int) :
    (sweepDb db now).1.db.orders = db.orders.map (applyAll now (selectEligible db.orders now)) := by
  unfold sweepDb
  by_cases h : (selectEligible db.orders now).length = 0
  · rw [List.length_eq_zero] at h
    simp only [h, List.length_nil, if_pos rfl]
    rw [List.map_congr_left fun r _ => (rfl : applyAll now [] r = r)]
    exact (List.map_id _).symm
  · simp only [if_neg h]
    exact foldl_step_orders now (selectEligible db.orders now) _

theorem sweepDb_of_empty_selection (d : DbState) (now : Int)
    (h : selectEligible d.orders now = []) :
    sweepDb d now = ({ db := d, processed := [], errors := [], updates := [] }, ⟨0, [], []⟩) := by
  simp [sweepDb, h]

theorem sweep_repeat_noop (d : DbState) (now : Int) :
    sweepDb (sweepDb d now).1.db now =
      ({ db := (sweepDb d now).1.db, processed := [], errors := [], updates := [] },
       ⟨0, [], []⟩) := by
  apply sweepDb_of_empty_selection
  rw [sweepDb_orders]
  exact selectEligible_after d.orders now

/-- C3: the conditional update writes only rows whose status is still
"shipped" at write time (and whose id matches), setting them to
"delivered" with `delivered_at` filled; a zero-affected-rows update is a
benign skip — the orders table, `processedOrders`, `errors` and the
audit log are all left unchanged; and a repeated sweep invocation on the
database a sweep produced selects nothing, changes nothing, and returns
the empty result. -/
theorem conditional_update_idempotent (db : List OrderRow) (d : DbState) (now : Int) (oid : Nat) :
    ((condUpdate db now oid).1 = db.map (applyCondUpdate now oid)) ∧
    (∀ r, applyCondUpdate now oid r ≠ r →
      r.status = "shipped" ∧ r.id = oid ∧
      (applyCondUpdate now oid r).status = "delivered" ∧
      (applyCondUpdate now oid r).delivered_at = some now) ∧
    (∀ s o, (condUpdate s.db.orders now o.id).2 = 0 →
      (stepOrderDb now s o).db.orders = s.db.orders ∧
      (stepOrderDb now s o).processed = s.processed ∧
      (stepOrderDb now s o).errors = s.errors ∧
      (stepOrderDb now s o).db.auditLog = s.db.auditLog) ∧
    sweepDb (sweepDb d now).1.db now =
      ({ db := (sweepDb d now).1.db, processed := [], errors := [], updates := [] },
       ⟨0, [], []⟩) := by
  refine ⟨rfl, ?_, ?_, sweep_repeat_noop d now⟩
  · intro r hne
    by_cases hb : (r.id == oid && r.status == "shipped") = true
    · have h := hb
      rw [Bool.and_eq_true, beq_iff_eq, beq_iff_eq] at h
      refine ⟨h.2, h.1, ?_, ?_⟩
      · unfold applyCondUpdate
        rw [if_pos hb]
      · unfold applyCondUpdate
        rw [if_pos hb]
    · exact absurd (applyCondUpdate_of_nomatch now oid r hb) hne
  · intro s o h0
    have hnot : ¬ ((condUpdate s.db.orders now o.id).2 = 1) := by omega
    have horders : (stepOrderDb now s o).db.orders = s.db.orders := by
      rw [stepOrderDb_orders]
      have hfil := List.filter_eq_nil_iff.mp (List.length_eq_zero.mp h0)
      rw [List.map_congr_left fun r hr => applyCondUpdate_of_nomatch now o.id r (hfil r hr)]
      exact List.map_id _
    refine ⟨horders, ?_, ?_, ?_⟩ <;>
      · unfold stepOrderDb
        dsimp only
        rw [if_neg hnot]

/-- Witness for C3: the update genuinely rewrites the still-shipped
`ord42`; and over a database whose only order is already delivered, the
step for `ord42` is a benign skip. -/
theorem conditional_update_idempotent_witness :
    (ord42.status = "shipped" ∧ ord42.id = 42 ∧
      (applyCondUpdate tenDays 42 ord42).status = "delivered" ∧
      (applyCondUpdate tenDays 42 ord42).delivered_at = some tenDays) ∧
    ((stepOrderDb tenDays traceDelivered ord42).processed = traceDelivered.processed ∧
      (stepOrderDb tenDays traceDelivered ord42).errors = traceDelivered.errors ∧
      (stepOrderDb tenDays traceDelivered ord42).db.auditLog = traceDelivered.db.auditLog) :=
  ⟨(conditional_update_idempotent [] dbOne tenDays 42).2.1 ord42 (by decide),
   ((conditional_update_idempotent [] dbOne tenDays 42).2.2.1 traceDelivered ord42 (by decide)).2⟩

/-- C9: within one invocation the selected orders come back ordered by
`shipped_at` ascending (oldest-shipped-first), and the per-order updates
are issued sequentially in exactly that order: the trace of UPDATE
statements is the selected orders' ids in selection order. -/
theorem selection_sorted_and_sequential (db : DbState) (now : Int) :
    (selectEligible db.orders now).Pairwise (fun a b => shippedAtKey a ≤ shippedAtKey b) ∧
    (sweepDb db now).1.updates = (selectEligible db.orders now).map (fun o => o.id) := by
  constructor
  · have htrans : ∀ a b c : OrderRow, shippedLe a b → shippedLe b c → shippedLe a c := by
      intro a b c hab hbc
      simp only [shippedLe, decide_eq_true_eq] at hab hbc ⊢
      exact le_trans hab hbc
    have htotal : ∀ a b : OrderRow, shippedLe a b || shippedLe b a := by
      intro a b
      rcases le_total (shippedAtKey a) (shippedAtKey b) with h | h <;>
        simp [shippedLe, h]
    have hp := List.sorted_mergeSort htrans htotal (db.orders.filter (selected now))
    exact hp.imp fun hab => by simpa [shippedLe] using hab
  · unfold sweepDb
    by_cases h : (selectEligible db.orders now).length = 0
    · rw [List.length_eq_zero] at h
      simp [h]
    · simp only [if_neg h]
      rw [foldl_step_updates]
      simp

end GKicks
